import Mathlib

/-!
Shallow embedding of the QuestGen route handler
(`app/api/generate-questions/route.ts`): the upload filename generator of
the POST handler, the parameter validation / file staging of the GET
handler, and the SSE stream reformatter that relays the upstream
generation events to the client.

JavaScript string-or-null values are modelled as `Option String`;
JavaScript truthiness of such a value (`!x` tests) is `isFalsy`.
-/

/-- JS falsiness of a string-or-null value: `null`/absent and the empty
string are falsy, every other string is truthy. -/
def isFalsy (o : Option String) : Bool :=
  match o with
  | none => true
  | some s => s == ""

/-- One element of the `messages` array of an upstream event's agent
value; only the `content` field is ever read by the route. -/
structure Message where
  content : Option String
deriving Repr, DecidableEq

/-- The value under the event's agent key: an optional `messages` array
and an optional `analysisResult` field. -/
structure AgentValue where
  messages : Option (List Message)
  analysisResult : Option String
deriving Repr, DecidableEq

/-- An upstream event. `agentTag` is the event's first top-level key
(`Object.keys(event)[0]`); `value` is the object stored under that key
(`none` when that value is falsy or not an object with the expected
fields); `serialized` stands for `JSON.stringify(event)`, which the
route only ever uses as an opaque fallback string. -/
structure UpstreamEvent where
  agentTag : String
  value : Option AgentValue
  serialized : String
deriving Repr, DecidableEq

/-- Content extraction for an event that passed the agent filter
(route.ts lines 169-196): when `event[agentType].messages[0].content`
is present and truthy, take it, then overwrite it with
`event[agentType].analysisResult` when that is truthy; in every other
case fall back to `JSON.stringify(event)`. -/
def extractContent (e : UpstreamEvent) : String :=
  match e.value with
  | some v =>
    match v.messages with
    | some (m :: _) =>
      match m.content with
      | some c =>
        if c == "" then
          e.serialized
        else
          match v.analysisResult with
          | some r => if r == "" then c else r
          | none => c
      | none => e.serialized
    | _ => e.serialized
  | none => e.serialized

/-- The standard shape test of the extraction guard: the event carries
an object whose `messages[0].content` is present and truthy. -/
def hasStandardShape (e : UpstreamEvent) : Bool :=
  match e.value with
  | some v =>
    match v.messages with
    | some (m :: _) =>
      match m.content with
      | some c => c != ""
      | none => false
    | _ => false
  | none => false

/-- One left-to-right pass of `content.replace(/```(json)?\n/g, "")`
over the character list: at each position the pattern greedily matches
the eight characters of a fence opener tagged `json` followed by a
newline, or else the four characters of an untagged opener followed by
a newline, and a match is removed. -/
def stripOpenFencesGo (fuel : Nat) (cs : List Char) : List Char :=
  match fuel with
  | 0 => cs
  | fuel + 1 =>
    match cs with
    | [] => []
    | c :: rest =>
      if ("```json\n".toList).isPrefixOf (c :: rest) then
        stripOpenFencesGo fuel (rest.drop 7)
      else if ("```\n".toList).isPrefixOf (c :: rest) then
        stripOpenFencesGo fuel (rest.drop 3)
      else
        c :: stripOpenFencesGo fuel rest

/-- The scan of the whole character list; every step of the pass
consumes at least one character, so the length of the list bounds the
number of steps and the fuel is never exhausted. -/
def stripOpenFencesAux (cs : List Char) : List Char :=
  stripOpenFencesGo cs.length cs

/-- `content.replace(/```(json)?\n/g, "")` on strings. -/
def removeOpenFences (s : String) : String :=
  ⟨stripOpenFencesAux s.toList⟩

/-- `content.replace(/```$/g, "")`: the end-anchored pattern matches
exactly the three trailing backticks when the string ends with them. -/
def removeClosingFence (s : String) : String :=
  if ("```".toList).isPrefixOf s.toList.reverse then
    ⟨(s.toList.reverse.drop 3).reverse⟩
  else s

/-- The full fence-stripping normalization of route.ts lines 199-204. -/
def cleanContent (s : String) : String :=
  removeClosingFence (removeOpenFences s)

/-- Removal of leading whitespace characters. -/
def trimLeadingWs (cs : List Char) : List Char :=
  match cs with
  | [] => []
  | c :: rest => if c.isWhitespace then trimLeadingWs rest else c :: rest

/-- The embedding of JS `String.prototype.trim`: strip whitespace from
both ends (modelling the ASCII whitespace characters). -/
def jsTrim (s : String) : String :=
  ⟨(trimLeadingWs ((trimLeadingWs s.toList).reverse)).reverse⟩

/-- The JSON-shape classifier of route.ts lines 206-209: the trimmed
cleaned content starts with an opening brace or an opening bracket. -/
def isJsonContent (s : String) : Bool :=
  match (jsTrim s).toList with
  | [] => false
  | c :: _ => c = '\x7b' || c = '['

/-- The fixed busy-server text sent on the JSON-shaped branch. -/
def busyMessage : String := "server is busy currently try again later"

/-- A JavaScript exception raised while consuming the upstream
sequence: either an `Error` instance carrying its `message`, or some
non-`Error` thrown value. -/
inductive JsError where
  | thrownError (message : String)
  | nonErrorValue
deriving Repr, DecidableEq

/-- `error instanceof Error ? error.message : "An unknown error
occurred"` (route.ts lines 258-261). -/
def streamErrorMessage (e : JsError) : String :=
  match e with
  | .thrownError m => m
  | .nonErrorValue => "An unknown error occurred"

/-- One outbound SSE message written to the client channel. -/
inductive OutMsg where
  | markdown (content : String)
  | error (content : String)
  | complete
  | streamError (message : String)
deriving Repr, DecidableEq

/-- The per-event relay loop (route.ts lines 157-251): skip events
whose agent tag is not "Formatter"; otherwise extract, clean and
classify the content; a JSON-shaped content short-circuits with the
busy error plus the completion marker (second component `true` records
that the loop returned early and closed the stream), a non-JSON
content emits one markdown message and continues. -/
def relayAux (events : List UpstreamEvent) : List OutMsg × Bool :=
  match events with
  | [] => ([], false)
  | e :: rest =>
    if e.agentTag != "Formatter" then
      relayAux rest
    else
      let clean := cleanContent (extractContent e)
      if isJsonContent clean then
        ([OutMsg.error busyMessage, OutMsg.complete], true)
      else
        (OutMsg.markdown clean :: (relayAux rest).1, (relayAux rest).2)

/-- A full run of the background relay task: the upstream sequence
yields `events` in order and then, if `err` is set, raises that
exception when the next event is awaited. When the loop short-circuited
the exception is never reached; on natural exhaustion the completion
marker is appended (route.ts line 254); on an exception the catch block
appends a single stream-error frame and closes without a completion
marker (route.ts lines 256-270). -/
def relayRun (events : List UpstreamEvent) (err : Option JsError) : List OutMsg :=
  if (relayAux events).2 then
    (relayAux events).1
  else
    match err with
    | none => (relayAux events).1 ++ [OutMsg.complete]
    | some e => (relayAux events).1 ++ [OutMsg.streamError (streamErrorMessage e)]

/-- One lowercase hexadecimal digit, used by the JSON string escaper. -/
def hexDigit (n : Nat) : Char :=
  if n < 10 then Char.ofNat (48 + n) else Char.ofNat (87 + n)

/-- Escape of a single character inside a `JSON.stringify` string
literal: quote, backslash and the named control characters get their
two-character escapes, the remaining control characters a `\u00xx`
escape, and every other character stands for itself. -/
def jsonEscapeChar (c : Char) : String :=
  if c = '"' then "\\\""
  else if c = '\\' then "\\\\"
  else if c = '\x08' then "\\b"
  else if c = '\x0c' then "\\f"
  else if c = '\n' then "\\n"
  else if c = '\r' then "\\r"
  else if c = '\t' then "\\t"
  else if c.toNat < 32 then
    "\\u00" ++ String.singleton (hexDigit (c.toNat / 16))
      ++ String.singleton (hexDigit (c.toNat % 16))
  else String.singleton c

/-- `JSON.stringify` of a string value. -/
def jsonString (s : String) : String :=
  "\"" ++ String.join (s.toList.map jsonEscapeChar) ++ "\""

/-- The exact SSE bytes the route writes for each outbound message:
markdown and error messages as a `data:` line holding the stringified
object, the completion marker, and the catch block's stream-error frame
under an `event: error` header. -/
def renderMsg (m : OutMsg) : String :=
  match m with
  | .markdown c =>
    "data: \x7b\"type\":\"markdown\",\"content\":" ++ jsonString c
      ++ ",\"isMarkdown\":true\x7d\n\n"
  | .error c =>
    "data: \x7b\"type\":\"error\",\"content\":" ++ jsonString c ++ "\x7d\n\n"
  | .complete => "event: complete\ndata: done\n\n"
  | .streamError msg =>
    "event: error\ndata: \x7b\"error\":" ++ jsonString msg ++ "\x7d\n\n"

/-- The query parameters of the GET request, each as returned by
`url.searchParams.get` (absent parameter gives `none`). -/
structure QueryParams where
  questionHeader : Option String
  questionDescription : Option String
  apiKey : Option String
  modelName : Option String
  uploadedFiles : Option String
deriving Repr, DecidableEq

/-- The fixed default model identifier. -/
def defaultModelName : String := "qwen/qwq-32b:free"

/-- `url.searchParams.get("modelName") || "qwen/qwq-32b:free"`. -/
def modelNameOf (p : QueryParams) : String :=
  match p.modelName with
  | none => defaultModelName
  | some s => if s == "" then defaultModelName else s

/-- Accumulator pass of the comma split: `cur` holds the characters of
the current segment in reverse. -/
def splitOnCommaAux (cs : List Char) (cur : List Char) : List (List Char) :=
  match cs with
  | [] => [cur.reverse]
  | c :: rest =>
    if c = ',' then cur.reverse :: splitOnCommaAux rest []
    else splitOnCommaAux rest (c :: cur)

/-- The embedding of JS `s.split(",")`: every comma separates two
segments, empty segments included, and the empty string yields one
empty segment. -/
def splitOnComma (s : String) : List String :=
  (splitOnCommaAux s.toList []).map (fun cs => ⟨cs⟩)

/-- `uploadedFilesParam.split(",").filter((file) => file.trim() !== "")`
(route.ts lines 90-92): split on commas, discard the segments that trim
to the empty string, keep every other segment verbatim. -/
def parseUploadedFiles (s : String) : List String :=
  (splitOnComma s).filter (fun file => jsTrim file != "")

/-- The argument object passed to `generateQuestions` (route.ts lines
126-132). -/
structure GenerationRequest where
  questionHeader : String
  questionDescription : String
  apiKey : String
  uploadedFiles : List String
  modelName : String
deriving Repr, DecidableEq

/-- The environment a single GET execution runs against: which
filenames exist in the scratch directory, whether the
`generateQuestions` call throws, whether its result carries a stream,
and the upstream events (with an optional terminal exception) that the
stream yields. -/
structure GetContext where
  fileExists : String → Bool
  genError : Option JsError
  hasStream : Bool
  upstream : List UpstreamEvent
  upstreamError : Option JsError

/-- The observable outcome of a GET execution: the 400 body of the
missing-parameter branch (the fixed `required` list plus the four
`received` flags), the 400 files-not-found body, the SSE success
response together with the generation request it issued, the 500
no-stream body together with the request, or the 500 body of the outer
catch. -/
inductive GetResult where
  | badRequestMissing (required : List String)
      (receivedHeader receivedDescription receivedApiKey receivedModelName : Bool)
  | badRequestFiles (message : String)
  | sse (request : GenerationRequest) (chunks : List OutMsg)
  | noStream (request : GenerationRequest) (message : String)
  | serverError (message : String)
deriving Repr, DecidableEq

/-- `error.message || fallback` of the outer catch blocks: an `Error`
with a truthy message surfaces it, anything else gives the fallback. -/
def catchMessage (e : JsError) (fallback : String) : String :=
  match e with
  | .thrownError m => if m == "" then fallback else m
  | .nonErrorValue => fallback

/-- The tail of the GET handler once the file list is settled: call
`generateQuestions` (its exception is caught by the outer catch at
route.ts line 288), then either relay the stream or answer the 500
no-stream body (route.ts lines 126-286). -/
def runGeneration (ctx : GetContext) (p : QueryParams) (files : List String) : GetResult :=
  match ctx.genError with
  | some e => .serverError (catchMessage e "Failed to generate questions")
  | none =>
    let req : GenerationRequest :=
      { questionHeader := p.questionHeader.getD ""
        questionDescription := p.questionDescription.getD ""
        apiKey := p.apiKey.getD ""
        uploadedFiles := files
        modelName := modelNameOf p }
    if ctx.hasStream then
      .sse req (relayRun ctx.upstream ctx.upstreamError)
    else
      .noStream req "No stream returned from generation service"

/-- The GET handler (route.ts lines 60-295): falsiness check of the
three mandatory parameters, comma splitting of the uploadedFiles
parameter, the on-disk existence re-check that either rejects with 400
or keeps only the existing subset, then generation and relay. -/
def handleGet (ctx : GetContext) (p : QueryParams) : GetResult :=
  if isFalsy p.questionHeader || isFalsy p.questionDescription || isFalsy p.apiKey then
    .badRequestMissing ["questionHeader", "questionDescription", "apiKey"]
      (!isFalsy p.questionHeader) (!isFalsy p.questionDescription)
      (!isFalsy p.apiKey) (modelNameOf p != "")
  else
    let uploadedFiles :=
      match p.uploadedFiles with
      | none => []
      | some s => if s == "" then [] else parseUploadedFiles s
    if uploadedFiles.length == 0 then
      runGeneration ctx p uploadedFiles
    else
      let existingFiles := uploadedFiles.filter ctx.fileExists
      if existingFiles.length == 0 then
        .badRequestFiles "Uploaded files not found on server. Please try uploading again."
      else
        runGeneration ctx p existingFiles

/-- Decimal digit accumulator of the template-string rendering of
`Date.now()`: peels digits from the low end into `acc`. -/
def natDigitsAux (n : Nat) (acc : List Char) : List Char :=
  if h : n = 0 then acc
  else natDigitsAux (n / 10) (Char.ofNat (48 + n % 10) :: acc)
termination_by n
decreasing_by
  exact Nat.div_lt_self (Nat.pos_of_ne_zero h) (by omega)

/-- The decimal rendering of a natural number, the embedding of the JS
template interpolation of the integer `Date.now()`. -/
def natToString (n : Nat) : String :=
  if n = 0 then "0" else ⟨natDigitsAux n []⟩

/-- The index of the last dot in the character list, if any. -/
def lastDotPos (cs : List Char) : Option Nat :=
  (List.range cs.length).foldl
    (fun acc i => if cs.getD i ' ' = '.' then some i else acc) none

/-- `path.extname` on a bare filename: the substring from the last dot
to the end, or the empty string when there is no dot or the only dot is
the leading character. -/
def extname (name : String) : String :=
  match lastDotPos name.toList with
  | none => ""
  | some 0 => ""
  | some i => ⟨name.toList.drop i⟩

/-- The filename the POST handler stores an upload under (route.ts
lines 28-30): the epoch-milliseconds timestamp rendered in decimal,
concatenated with the original file's extension. -/
def storeFilename (timestamp : Nat) (originalName : String) : String :=
  natToString timestamp ++ extname originalName

/-- The pattern of the spec's testable property for PDF uploads: one or
more decimal digits followed by the literal suffix ".pdf". -/
def matchesPdfPattern (s : String) : Bool :=
  decide (s.toList.length ≥ 5)
    && (s.toList.take (s.toList.length - 4)).all (fun c => c.isDigit)
    && (s.toList.drop (s.toList.length - 4) == ".pdf".toList)

/-- The generation request a GET outcome issued, when it issued one. -/
def resultRequest (r : GetResult) : Option GenerationRequest :=
  match r with
  | .sse req _ => some req
  | .noStream req _ => some req
  | _ => none

/-- Whether a GET outcome is the streaming success response. -/
def isSse (r : GetResult) : Bool :=
  match r with
  | .sse _ _ => true
  | _ => false

/-- Whether a GET outcome is the 400 missing-parameter body. -/
def isMissingParamResult (r : GetResult) : Bool :=
  match r with
  | .badRequestMissing _ _ _ _ _ => true
  | _ => false

/-- A mandatory query parameter is missing when it is absent from the
query string or present with the empty string as its value. -/
def paramMissing (o : Option String) : Prop :=
  o = none ∨ o = some ""

/-- `isFalsy` decides exactly the missing-parameter condition. -/
theorem isFalsy_eq_true_iff (o : Option String) : isFalsy o = true ↔ paramMissing o := by
  cases o with
  | none => simp [isFalsy, paramMissing]
  | some s => simp [isFalsy, paramMissing]

/-- The resolved model name is never the empty string: the default is
nonempty and an empty query value falls back to the default. -/
theorem modelNameOf_bne_empty (p : QueryParams) : (modelNameOf p != "") = true := by
  unfold modelNameOf
  cases p.modelName with
  | none => decide
  | some s =>
    by_cases hs : s = ""
    · simp [hs, defaultModelName]
    · simp [hs]

/-- Dropping a non-Formatter event anywhere in the upstream sequence
does not change the relay loop's output or its early-close flag. -/
theorem relayAux_skip (pre : List UpstreamEvent) (e : UpstreamEvent)
    (rest : List UpstreamEvent) (h : e.agentTag ≠ "Formatter") :
    relayAux (pre ++ e :: rest) = relayAux (pre ++ rest) := by
  induction pre with
  | nil => simp [relayAux, bne_iff_ne, h]
  | cons f fs ih => simp only [List.cons_append, relayAux, List.append_eq, ih]

/-- When the relay loop does not close early, every message it collects
is markdown-classified. -/
theorem relayAux_not_closed_markdown (events : List UpstreamEvent) :
    (relayAux events).2 = false →
    ∀ m ∈ (relayAux events).1, ∃ c, m = OutMsg.markdown c := by
  induction events with
  | nil => simp [relayAux]
  | cons e rest ih =>
    intro h m hm
    by_cases hA : e.agentTag = "Formatter"
    · by_cases hJ : isJsonContent (cleanContent (extractContent e)) = true
      · simp [relayAux, hA, hJ] at h
      · simp only [relayAux, hA, bne_self_eq_false, Bool.false_eq_true, if_false,
          hJ, if_neg] at h hm
        rcases List.mem_cons.1 hm with hm1 | hm2
        · exact ⟨cleanContent (extractContent e), hm1⟩
        · exact ih h m hm2
    · simp only [relayAux, bne_iff_ne, ne_eq, hA, not_false_eq_true, if_true] at h hm
      exact ih h m hm

/-- When every Formatter event carries non-JSON-shaped content, the
relay loop collects one markdown message per Formatter event, in the
order the events arrive, and never closes early. -/
theorem relayAux_all_markdown (events : List UpstreamEvent) :
    (∀ e ∈ events, e.agentTag = "Formatter" →
      isJsonContent (cleanContent (extractContent e)) = false) →
    relayAux events =
      ((events.filter (fun e => e.agentTag == "Formatter")).map
        (fun e => OutMsg.markdown (cleanContent (extractContent e))), false) := by
  induction events with
  | nil => intro _; simp [relayAux]
  | cons e rest ih =>
    intro h
    have hrest : ∀ x ∈ rest, x.agentTag = "Formatter" →
        isJsonContent (cleanContent (extractContent x)) = false :=
      fun x hx => h x (List.mem_cons_of_mem _ hx)
    by_cases hA : e.agentTag = "Formatter"
    · have hJ := h e (List.mem_cons_self _ _) hA
      simp [relayAux, hA, hJ, ih hrest, List.filter_cons]
    · simp [relayAux, bne_iff_ne, hA, ih hrest, List.filter_cons]

/-- Reduction of the GET handler when the three mandatory parameters
are truthy and the uploadedFiles parameter parses to a non-empty list:
execution reaches the on-disk existence re-check. -/
theorem handleGet_files (ctx : GetContext) (p : QueryParams) (s : String)
    (hs : p.uploadedFiles = some s)
    (hh : isFalsy p.questionHeader = false)
    (hd : isFalsy p.questionDescription = false)
    (hk : isFalsy p.apiKey = false)
    (hne : parseUploadedFiles s ≠ []) :
    handleGet ctx p =
      if ((parseUploadedFiles s).filter ctx.fileExists).length == 0 then
        .badRequestFiles "Uploaded files not found on server. Please try uploading again."
      else
        runGeneration ctx p ((parseUploadedFiles s).filter ctx.fileExists) := by
  have hsne : s ≠ "" := by
    intro h0
    apply hne
    rw [h0]
    decide
  have hlen : ((parseUploadedFiles s).length == 0) = false := by
    simp [List.length_eq_zero, hne]
  simp only [handleGet, hs, hh, hd, hk, Bool.or_self, Bool.false_or, Bool.if_false_left,
    Bool.false_eq_true, if_false]
  simp [hsne, hlen]

/-- The character of a decimal digit is a digit character. -/
theorem digit_char_isDigit (d : Nat) (h : d < 10) :
    (Char.ofNat (48 + d)).isDigit = true := by
  interval_cases d <;> decide

/-- Every character the decimal accumulator produces is a digit,
provided the accumulator it starts from holds only digits. -/
theorem natDigitsAux_digits (n : Nat) :
    ∀ acc, (∀ c ∈ acc, c.isDigit = true) →
      ∀ c ∈ natDigitsAux n acc, c.isDigit = true := by
  induction n using Nat.strong_induction_on with
  | _ n ih =>
    intro acc hacc c hc
    rw [natDigitsAux] at hc
    by_cases h0 : n = 0
    · rw [dif_pos h0] at hc
      exact hacc c hc
    · rw [dif_neg h0] at hc
      refine ih (n / 10) (Nat.div_lt_self (Nat.pos_of_ne_zero h0) (by omega)) _ ?_ c hc
      intro d hd
      rcases List.mem_cons.1 hd with hd1 | hd2
      · rw [hd1]
        exact digit_char_isDigit (n % 10) (Nat.mod_lt _ (by omega))
      · exact hacc d hd2

/-- The decimal accumulator never shrinks its accumulator. -/
theorem natDigitsAux_length (n : Nat) :
    ∀ acc : List Char, acc.length ≤ (natDigitsAux n acc).length := by
  induction n using Nat.strong_induction_on with
  | _ n ih =>
    intro acc
    rw [natDigitsAux]
    by_cases h0 : n = 0
    · rw [dif_pos h0]
    · rw [dif_neg h0]
      calc acc.length
          ≤ (Char.ofNat (48 + n % 10) :: acc).length := by simp
        _ ≤ _ := ih (n / 10) (Nat.div_lt_self (Nat.pos_of_ne_zero h0) (by omega)) _

/-- The decimal rendering of a natural number consists of digits. -/
theorem natToString_digits (n : Nat) :
    ∀ c ∈ (natToString n).toList, c.isDigit = true := by
  unfold natToString
  by_cases h0 : n = 0
  · rw [if_pos h0]
    decide
  · rw [if_neg h0]
    exact natDigitsAux_digits n [] (by simp)

/-- The decimal rendering of a natural number is nonempty. -/
theorem natToString_ne_nil (n : Nat) : (natToString n).toList ≠ [] := by
  unfold natToString
  by_cases h0 : n = 0
  · rw [if_pos h0]
    decide
  · rw [if_neg h0]
    show natDigitsAux n [] ≠ []
    rw [natDigitsAux, dif_neg h0]
    intro hnil
    have := natDigitsAux_length (n / 10) (Char.ofNat (48 + n % 10) :: [])
    rw [hnil] at this
    simp at this

/-- C8 (confirmed): the stored upload filename is the decimal epoch
timestamp concatenated with the original extension; when the original
extension is ".pdf" the name is one or more digits followed by ".pdf",
the shape the spec's pattern describes. -/
theorem upload_filename_shape (t : Nat) (name : String)
    (h : extname name = ".pdf") :
    storeFilename t name = natToString t ++ ".pdf"
    ∧ matchesPdfPattern (storeFilename t name) = true := by
  have h1 : storeFilename t name = natToString t ++ ".pdf" := by
    rw [storeFilename, h]
  refine ⟨h1, ?_⟩
  rw [h1]
  have hds := natToString_digits t
  have hne := natToString_ne_nil t
  have hlist : (natToString t ++ ".pdf").toList
      = (natToString t).toList ++ ".pdf".toList :=
    String.data_append _ _
  have hpos : 1 ≤ (natToString t).toList.length :=
    List.length_pos.2 hne
  unfold matchesPdfPattern
  rw [hlist]
  have hlen : ((natToString t).toList ++ ".pdf".toList).length
      = (natToString t).toList.length + 4 := by
    simp
  rw [hlen]
  have h4 : (natToString t).toList.length + 4 - 4
      = (natToString t).toList.length := by omega
  rw [h4, List.take_left, List.drop_left]
  simp only [Bool.and_eq_true, beq_self_eq_true, and_true]
  constructor
  · exact decide_eq_true (by omega)
  · exact List.all_eq_true.2 hds

/-- Witness for C8: a concrete upload named "doc.pdf". -/
theorem upload_filename_shape_witness :
    storeFilename 0 "doc.pdf" = natToString 0 ++ ".pdf"
    ∧ matchesPdfPattern (storeFilename 0 "doc.pdf") = true :=
  upload_filename_shape 0 "doc.pdf" (by decide)

/-- C1 (confirmed): when the relay reaches a Formatter event whose
content is JSON-shaped after fence stripping, it emits exactly one
error-classified message carrying the fixed busy text, then the
completion marker, and closes: the output is independent of however
many upstream events (or a pending upstream exception) remain. The
second conjunct pins down the exact SSE bytes, including the
completion marker. -/
theorem formatter_json_short_circuit (e : UpstreamEvent)
    (rest : List UpstreamEvent) (err : Option JsError)
    (hAgent : e.agentTag = "Formatter")
    (hJson : isJsonContent (cleanContent (extractContent e)) = true) :
    relayRun (e :: rest) err = [OutMsg.error busyMessage, OutMsg.complete]
    ∧ (relayRun (e :: rest) err).map renderMsg
      = ["data: \x7b\"type\":\"error\",\"content\":\"server is busy currently try again later\"\x7d\n\n",
         "event: complete\ndata: done\n\n"] := by
  have h1 : relayAux (e :: rest) = ([OutMsg.error busyMessage, OutMsg.complete], true) := by
    simp [relayAux, hAgent, hJson]
  have h2 : relayRun (e :: rest) err = [OutMsg.error busyMessage, OutMsg.complete] := by
    simp [relayRun, h1]
  refine ⟨h2, ?_⟩
  rw [h2]
  decide

/-- Witness for C1 at the spec's concrete example: a fenced JSON
payload from Formatter, with a further Formatter event pending that is
never processed. -/
theorem formatter_json_short_circuit_witness :
    relayRun [⟨"Formatter", some ⟨some [⟨some "```json\n\x7b\"x\":1\x7d\n```"⟩], none⟩, "s1"⟩,
              ⟨"Formatter", some ⟨some [⟨some "more text"⟩], none⟩, "s2"⟩] none
      = [OutMsg.error busyMessage, OutMsg.complete] :=
  (formatter_json_short_circuit
    ⟨"Formatter", some ⟨some [⟨some "```json\n\x7b\"x\":1\x7d\n```"⟩], none⟩, "s1"⟩
    [⟨"Formatter", some ⟨some [⟨some "more text"⟩], none⟩, "s2"⟩] none rfl (by decide)).1

/-- C2 counterexample: on an upstream exception the catch block writes
the single error frame and then closes the connection; the completion
marker the claim promises is never written. -/
theorem stream_error_no_completion_marker :
    relayRun [] (some (JsError.thrownError "boom")) = [OutMsg.streamError "boom"]
    ∧ OutMsg.complete ∉ relayRun [] (some (JsError.thrownError "boom")) := by
  constructor
  · decide
  · decide

/-- C2 amended: an exception thrown while consuming the upstream
sequence (before any short-circuit) makes the relay emit exactly one
stream-error frame carrying the error's message, or the fixed unknown
text for a non-Error value, after the messages already written, and the
connection then closes with no completion marker. -/
theorem stream_error_event_then_close (events : List UpstreamEvent) (err : JsError)
    (hnc : (relayAux events).2 = false) :
    relayRun events (some err)
      = (relayAux events).1 ++ [OutMsg.streamError (streamErrorMessage err)]
    ∧ OutMsg.complete ∉ relayRun events (some err) := by
  have h1 : relayRun events (some err)
      = (relayAux events).1 ++ [OutMsg.streamError (streamErrorMessage err)] := by
    simp [relayRun, hnc]
  refine ⟨h1, ?_⟩
  rw [h1]
  intro hmem
  rcases List.mem_append.1 hmem with hin | hin
  · obtain ⟨c, hc⟩ := relayAux_not_closed_markdown events hnc _ hin
    exact absurd hc (by simp)
  · simp at hin

/-- Witness for the amended C2: a markdown event followed by a thrown
non-Error value. -/
theorem stream_error_event_then_close_witness :
    relayRun [⟨"Formatter", some ⟨some [⟨some "Q1"⟩], none⟩, "s1"⟩]
        (some JsError.nonErrorValue)
      = (relayAux [⟨"Formatter", some ⟨some [⟨some "Q1"⟩], none⟩, "s1"⟩]).1
          ++ [OutMsg.streamError "An unknown error occurred"]
    ∧ OutMsg.complete ∉
        relayRun [⟨"Formatter", some ⟨some [⟨some "Q1"⟩], none⟩, "s1"⟩]
          (some JsError.nonErrorValue) :=
  stream_error_event_then_close
    [⟨"Formatter", some ⟨some [⟨some "Q1"⟩], none⟩, "s1"⟩]
    JsError.nonErrorValue (by decide)

/-- C5 (confirmed): an event whose agent tag is not "Formatter"
contributes no outbound message and no state change wherever it sits in
the upstream sequence: the run with it equals the run without it. -/
theorem non_formatter_event_no_output (pre : List UpstreamEvent) (e : UpstreamEvent)
    (rest : List UpstreamEvent) (err : Option JsError)
    (h : e.agentTag ≠ "Formatter") :
    relayRun (pre ++ e :: rest) err = relayRun (pre ++ rest) err := by
  unfold relayRun
  rw [relayAux_skip pre e rest h]

/-- Witness for C5: a single Planner event produces the same output as
the empty stream. -/
theorem non_formatter_event_no_output_witness :
    relayRun [⟨"Planner", some ⟨some [⟨some "noise"⟩], none⟩, "s0"⟩] none
      = relayRun [] none :=
  non_formatter_event_no_output [] ⟨"Planner", some ⟨some [⟨some "noise"⟩], none⟩, "s0"⟩
    [] none (by decide)

/-- C6 (confirmed): when every Formatter event carries non-JSON-shaped
content and the upstream sequence ends without an exception, the relay
emits one markdown-classified message per Formatter event carrying the
cleaned text, in upstream order with non-Formatter events dropped and
nothing reordered, then the completion marker. -/
theorem markdown_relay_order (events : List UpstreamEvent)
    (h : ∀ e ∈ events, e.agentTag = "Formatter" →
      isJsonContent (cleanContent (extractContent e)) = false) :
    relayRun events none
      = (events.filter (fun e => e.agentTag == "Formatter")).map
          (fun e => OutMsg.markdown (cleanContent (extractContent e)))
        ++ [OutMsg.complete] := by
  have key := relayAux_all_markdown events h
  simp [relayRun, key]

/-- Witness for C6 at the spec's example: Formatter events "Q1" then
"Q2" give two markdown messages in order, then the completion marker. -/
theorem markdown_relay_order_witness :
    relayRun [⟨"Formatter", some ⟨some [⟨some "Q1"⟩], none⟩, "s1"⟩,
              ⟨"Formatter", some ⟨some [⟨some "Q2"⟩], none⟩, "s2"⟩] none
      = [OutMsg.markdown "Q1", OutMsg.markdown "Q2", OutMsg.complete] :=
  (markdown_relay_order
    [⟨"Formatter", some ⟨some [⟨some "Q1"⟩], none⟩, "s1"⟩,
     ⟨"Formatter", some ⟨some [⟨some "Q2"⟩], none⟩, "s2"⟩] (by decide)).trans (by decide)

/-- C3 counterexample: an event carrying `analysisResult` but no
`messages` is serialized whole; the present `analysisResult` value is
not preferred, contradicting the claim that it is preferred whenever
present. -/
theorem analysis_result_not_always_preferred :
    extractContent ⟨"Formatter", some ⟨none, some "RESULT"⟩, "SERIALIZED"⟩ = "SERIALIZED"
    ∧ ("SERIALIZED" : String) ≠ "RESULT" :=
  ⟨rfl, by decide⟩

/-- C3 amended: `analysisResult` is preferred only when the standard
`messages[0].content` shape is also present and truthy; when that shape
is absent the whole event is serialized, even if `analysisResult` is
present, so no filtered-through event is ever silently swallowed. -/
theorem extract_content_priority (e : UpstreamEvent) :
    (hasStandardShape e = false → extractContent e = e.serialized)
    ∧ (∀ v m ms, e.value = some v → v.messages = some (m :: ms) →
        hasStandardShape e = true →
        extractContent e =
          if isFalsy v.analysisResult then m.content.getD ""
          else v.analysisResult.getD "") := by
  obtain ⟨tag, val, ser⟩ := e
  constructor
  · intro h
    cases val with
    | none => rfl
    | some v =>
      cases hm : v.messages with
      | none => simp [extractContent, hm]
      | some ms0 =>
        cases ms0 with
        | nil => simp [extractContent, hm]
        | cons m rest =>
          cases hc : m.content with
          | none => simp [extractContent, hm, hc]
          | some c =>
            simp only [hasStandardShape, hm, hc] at h
            simp only [bne_eq_false_iff_eq] at h
            simp [extractContent, hm, hc, h]
  · rintro v m ms rfl hm hstd
    simp only [hasStandardShape, hm] at hstd
    cases hc : m.content with
    | none => rw [hc] at hstd; simp at hstd
    | some c =>
      rw [hc] at hstd
      simp only [bne_iff_ne, ne_eq] at hstd
      cases har : v.analysisResult with
      | none => simp [extractContent, hm, hc, hstd, isFalsy, har]
      | some r =>
        by_cases hr : r = ""
        · simp [extractContent, hm, hc, hstd, isFalsy, har, hr]
        · simp [extractContent, hm, hc, hstd, isFalsy, har, hr]

/-- Witness for the amended C3: with both the standard shape and a
truthy `analysisResult` present, the latter wins. -/
theorem extract_content_priority_witness :
    extractContent ⟨"Formatter", some ⟨some [⟨some "body"⟩], some "RESULT"⟩, "SERIALIZED"⟩
      = "RESULT" := by
  have h := (extract_content_priority
      ⟨"Formatter", some ⟨some [⟨some "body"⟩], some "RESULT"⟩, "SERIALIZED"⟩).2
    ⟨some [⟨some "body"⟩], some "RESULT"⟩ ⟨some "body"⟩ [] rfl rfl (by decide)
  simpa [isFalsy] using h

/-- C4 counterexample: with only apiKey missing, the 400 body's
`required` list still names questionHeader and questionDescription,
which are not missing, so the body does not name exactly the missing
parameters and only those. -/
theorem missing_params_body_lists_all :
    handleGet ⟨fun _ => false, none, true, [], none⟩
        ⟨some "h", some "d", none, none, none⟩
      = GetResult.badRequestMissing ["questionHeader", "questionDescription", "apiKey"]
          true true false true
    ∧ ¬ paramMissing (some "h")
    ∧ "questionHeader" ∈ ["questionHeader", "questionDescription", "apiKey"] := by
  refine ⟨by decide, ?_, by decide⟩
  intro h
  rcases h with h | h <;> simp at h

/-- C4 amended: a request missing any mandatory parameter gets the 400
missing-parameter body; that body always lists all three mandatory
names in `required` and carries per-parameter received flags, and the
flags are false exactly for the missing parameters (the modelName flag
is always true because of its default). -/
theorem missing_params_flags (ctx : GetContext) (p : QueryParams)
    (h : paramMissing p.questionHeader ∨ paramMissing p.questionDescription
          ∨ paramMissing p.apiKey) :
    ∃ rh rd rk,
      handleGet ctx p
        = GetResult.badRequestMissing ["questionHeader", "questionDescription", "apiKey"]
            rh rd rk true
      ∧ (rh = false ↔ paramMissing p.questionHeader)
      ∧ (rd = false ↔ paramMissing p.questionDescription)
      ∧ (rk = false ↔ paramMissing p.apiKey) := by
  refine ⟨!isFalsy p.questionHeader, !isFalsy p.questionDescription, !isFalsy p.apiKey,
    ?_, ?_, ?_, ?_⟩
  · have hcond : (isFalsy p.questionHeader || isFalsy p.questionDescription
        || isFalsy p.apiKey) = true := by
      rcases h with h | h | h <;> simp [(isFalsy_eq_true_iff _).2 h]
    have hm := modelNameOf_bne_empty p
    simp [handleGet, hcond, hm]
  · simp [← isFalsy_eq_true_iff, Bool.not_eq_false']
  · simp [← isFalsy_eq_true_iff, Bool.not_eq_false']
  · simp [← isFalsy_eq_true_iff, Bool.not_eq_false']

/-- Witness for the amended C4: apiKey absent, the other two present. -/
theorem missing_params_flags_witness :
    ∃ rh rd rk,
      handleGet ⟨fun _ => false, none, true, [], none⟩
          ⟨some "h", some "d", none, none, none⟩
        = GetResult.badRequestMissing ["questionHeader", "questionDescription", "apiKey"]
            rh rd rk true
      ∧ (rh = false ↔ paramMissing (some "h"))
      ∧ (rd = false ↔ paramMissing (some "d"))
      ∧ (rk = false ↔ paramMissing (none : Option String)) :=
  missing_params_flags ⟨fun _ => false, none, true, [], none⟩
    ⟨some "h", some "d", none, none, none⟩ (Or.inr (Or.inr (Or.inl rfl)))

/-- C7 (confirmed): with the mandatory parameters present and a
declared, non-empty uploadedFiles list, the handler answers the 400
not-found body when none of the declared files exist on disk, and
otherwise proceeds to generation with exactly the existing subset of
the declared names and no error response. -/
theorem uploaded_files_existence_policy (ctx : GetContext) (p : QueryParams) (s : String)
    (hs : p.uploadedFiles = some s)
    (hh : isFalsy p.questionHeader = false)
    (hd : isFalsy p.questionDescription = false)
    (hk : isFalsy p.apiKey = false)
    (hne : parseUploadedFiles s ≠ []) :
    ((parseUploadedFiles s).filter ctx.fileExists = [] →
      handleGet ctx p
        = GetResult.badRequestFiles
            "Uploaded files not found on server. Please try uploading again.")
    ∧ ((parseUploadedFiles s).filter ctx.fileExists ≠ [] →
        ctx.genError = none → ctx.hasStream = true →
        isSse (handleGet ctx p) = true
        ∧ (resultRequest (handleGet ctx p)).map GenerationRequest.uploadedFiles
            = some ((parseUploadedFiles s).filter ctx.fileExists)) := by
  have hred := handleGet_files ctx p s hs hh hd hk hne
  constructor
  · intro hnone
    rw [hred, hnone]
    simp
  · intro hsome hgen hstream
    have hlen : (((parseUploadedFiles s).filter ctx.fileExists).length == 0) = false := by
      simp [List.length_eq_zero, hsome]
    rw [hred]
    simp [hlen, runGeneration, hgen, hstream, isSse, resultRequest]

/-- Witness for C7 at the spec's example: of "a.txt,b.txt" only "a.txt"
exists, and generation proceeds with just "a.txt". -/
theorem uploaded_files_existence_policy_witness :
    isSse (handleGet ⟨fun f => f == "a.txt", none, true, [], none⟩
        ⟨some "h", some "d", some "k", none, some "a.txt,b.txt"⟩) = true
    ∧ (resultRequest (handleGet ⟨fun f => f == "a.txt", none, true, [], none⟩
          ⟨some "h", some "d", some "k", none, some "a.txt,b.txt"⟩)).map
        GenerationRequest.uploadedFiles
      = some ["a.txt"] := by
  have h := (uploaded_files_existence_policy
      ⟨fun f => f == "a.txt", none, true, [], none⟩
      ⟨some "h", some "d", some "k", none, some "a.txt,b.txt"⟩
      "a.txt,b.txt" rfl (by decide) (by decide) (by decide) (by decide)).2
    (by decide) rfl rfl
  exact ⟨h.1, h.2.trans (by decide)⟩

/-- C9 (confirmed): a mandatory parameter supplied as the empty string
is treated exactly like an absent parameter: the handler's outcome is
unchanged and is the 400 missing-parameter branch, because the check is
on JS falsiness, not key presence. -/
theorem empty_param_treated_as_absent (ctx : GetContext) (p : QueryParams) :
    (handleGet ctx { p with questionHeader := some "" }
        = handleGet ctx { p with questionHeader := none }
      ∧ isMissingParamResult (handleGet ctx { p with questionHeader := some "" }) = true)
    ∧ (handleGet ctx { p with questionDescription := some "" }
        = handleGet ctx { p with questionDescription := none }
      ∧ isMissingParamResult
          (handleGet ctx { p with questionDescription := some "" }) = true)
    ∧ (handleGet ctx { p with apiKey := some "" }
        = handleGet ctx { p with apiKey := none }
      ∧ isMissingParamResult (handleGet ctx { p with apiKey := some "" }) = true) := by
  refine ⟨⟨?_, ?_⟩, ⟨?_, ?_⟩, ⟨?_, ?_⟩⟩ <;>
    simp [handleGet, isFalsy, isMissingParamResult, modelNameOf]

/-- C10 (confirmed): splitting the uploadedFiles parameter keeps every
comma segment verbatim whose trimmed form is nonempty (a sublist of the
raw split, so original whitespace and order are preserved), discards
exactly the segments that trim to empty, and the retained untrimmed
names are what the existence filter and the generation request see. -/
theorem uploaded_files_whitespace (ctx : GetContext) (p : QueryParams) (s : String)
    (hs : p.uploadedFiles = some s)
    (hh : isFalsy p.questionHeader = false)
    (hd : isFalsy p.questionDescription = false)
    (hk : isFalsy p.apiKey = false)
    (hne : parseUploadedFiles s ≠ [])
    (hex : (parseUploadedFiles s).filter ctx.fileExists ≠ [])
    (hgen : ctx.genError = none) (hstream : ctx.hasStream = true) :
    List.Sublist (parseUploadedFiles s) (splitOnComma s)
    ∧ (∀ f ∈ splitOnComma s, (f ∈ parseUploadedFiles s ↔ jsTrim f ≠ ""))
    ∧ (resultRequest (handleGet ctx p)).map GenerationRequest.uploadedFiles
        = some ((parseUploadedFiles s).filter ctx.fileExists) := by
  refine ⟨List.filter_sublist _, ?_, ?_⟩
  · intro f hf
    simp [parseUploadedFiles, List.mem_filter, hf]
  · have hred := handleGet_files ctx p s hs hh hd hk hne
    have hlen : (((parseUploadedFiles s).filter ctx.fileExists).length == 0) = false := by
      simp [List.length_eq_zero, hex]
    rw [hred]
    simp [hlen, runGeneration, hgen, hstream, resultRequest]

/-- Witness for C10: the declared list has a padded name, a
whitespace-only segment and a plain name; the padded name is kept with
its whitespace and matched on disk in untrimmed form. -/
theorem uploaded_files_whitespace_witness :
    List.Sublist (parseUploadedFiles " a.txt ,  ,b.txt") (splitOnComma " a.txt ,  ,b.txt")
    ∧ (∀ f ∈ splitOnComma " a.txt ,  ,b.txt",
        (f ∈ parseUploadedFiles " a.txt ,  ,b.txt" ↔ jsTrim f ≠ ""))
    ∧ (resultRequest (handleGet ⟨fun f => f == " a.txt ", none, true, [], none⟩
          ⟨some "h", some "d", some "k", none, some " a.txt ,  ,b.txt"⟩)).map
        GenerationRequest.uploadedFiles
        = some ((parseUploadedFiles " a.txt ,  ,b.txt").filter (fun f => f == " a.txt ")) :=
  uploaded_files_whitespace ⟨fun f => f == " a.txt ", none, true, [], none⟩
    ⟨some "h", some "d", some "k", none, some " a.txt ,  ,b.txt"⟩ " a.txt ,  ,b.txt"
    rfl (by decide) (by decide) (by decide) (by decide) (by decide) rfl rfl
